import Mathlib

/-!
Verification development for the AI Art Arena repository.

The file embeds, shallowly and faithfully, the parts of the code base that
the frozen claims are about:

* `PrizePool` — the Solidity escrow contract `contracts/PrizePool.sol`
  (games, entries, fee arithmetic, payouts).  Solidity 0.8 uses checked
  arithmetic, so an execution that completes never wraps; the `Nat`
  arithmetic below therefore agrees with every successful on-chain
  execution.  The two `usdc.safeTransfer` calls of `finalizeGame` are
  recorded in an append-only `payouts` ledger, tagged with the game id of
  the `finalizeGame` call that issued them (mirroring the `GameFinalized`
  and `PlatformFeeCollected` events emitted next to the transfers).
* `X402` — the payment verifier `backend/services/x402-payment.ts`
  (`verifyPayment` over a transaction-receipt oracle).
* `Api` — the Fastify routes of the backend server (`POST /api/submit`,
  `POST /api/admin/start-game`), with the in-memory game map.
* `Judge` — `backend/services/ai-judge.ts` (`judgeSubmissions`,
  `judgeArtworks`); the network and JSON-parsing boundary of the external
  scoring capability is abstracted as an `ExtResult` oracle and the
  `Math.random()` stream of the demo path as a `rng` oracle, so every
  function stays a deterministic function of its oracles.
* `Automation` — `backend/services/game-automation.ts`
  (`finalizeCurrentGame`, the winner-selection loop, `startNewGame`).
-/

namespace ArtArena

/-! Section: string helpers

`String.prototype.toLowerCase` and `String.prototype.includes`, used by the
payment verifier and the submit route, written out over the character list
of the string. -/

def strLower (s : String) : String := ⟨s.data.map Char.toLower⟩

def listStartsWith : List Char → List Char → Bool
  | _, [] => true
  | [], _ :: _ => false
  | c :: cs, d :: ds => c == d && listStartsWith cs ds

def listContainsSub : List Char → List Char → Bool
  | [], needle => needle.isEmpty
  | c :: cs, needle => listStartsWith (c :: cs) needle || listContainsSub cs needle

def strContainsSub (hay needle : String) : Bool := listContainsSub hay.data needle.data

def isOkE {ε α : Type} : Except ε α → Bool
  | .ok _ => true
  | .error _ => false

def isErrE {ε α : Type} : Except ε α → Bool
  | .ok _ => false
  | .error _ => true

/-! Section: the escrow contract (contracts/PrizePool.sol) -/

namespace PrizePool

def ENTRY_FEE : Nat := 50000

def PLATFORM_FEE_BPS : Nat := 1000

def BPS_DENOMINATOR : Nat := 10000

/-- Model of `struct Game` of PrizePool.sol.  `winner` is an address (`0` is
`address(0)`). -/
structure Game where
  prizePool : Nat
  entryCount : Nat
  startTime : Nat
  endTime : Nat
  winner : Nat
  finalized : Bool
  deriving DecidableEq

/-- The zero value a Solidity mapping yields for an absent key. -/
def defaultGame : Game :=
  { prizePool := 0, entryCount := 0, startTime := 0, endTime := 0
    winner := 0, finalized := false }

/-- Model of `struct Entry` of PrizePool.sol. -/
structure Entry where
  player : Nat
  imageUri : String
  timestamp : Nat
  score : Nat
  deriving DecidableEq

/-- One outgoing `usdc.safeTransfer` issued by `finalizeGame`, tagged with
the game id of the call that issued it (the same id the `GameFinalized` /
`PlatformFeeCollected` events carry). -/
structure Payout where
  gameId : Nat
  recipient : Nat
  amount : Nat
  deriving DecidableEq

/-- The custom errors of PrizePool.sol. -/
inductive PrizeErr
  | GameNotActive
  | AlreadyEntered
  | GameNotEnded
  | GameAlreadyFinalized
  | NoEntries
  | InvalidWinner
  deriving DecidableEq

/-- The contract storage: `currentGameId`, the three mappings, the platform
wallet, plus the ledger of outgoing payouts. -/
structure ContractState where
  platformWallet : Nat
  currentGameId : Nat
  games : Nat → Game
  gameEntries : Nat → List Entry
  hasEntered : Nat → Nat → Bool
  payouts : List Payout

/-- Storage right after the constructor ran. -/
def initState (platformWallet : Nat) : ContractState :=
  { platformWallet := platformWallet
    currentGameId := 0
    games := fun _ => defaultGame
    gameEntries := fun _ => []
    hasEntered := fun _ _ => false
    payouts := [] }

/-- Operation `startGame(duration)`: increments `currentGameId` and installs a fresh
game record.  The function has no precondition beyond `onlyOwner`; it never
reverts. -/
def startGame (s : ContractState) (now duration : Nat) : ContractState :=
  let gid := s.currentGameId + 1
  { s with
    currentGameId := gid
    games := fun i =>
      if i = gid then
        { prizePool := 0, entryCount := 0, startTime := now
          endTime := now + duration, winner := 0, finalized := false }
      else s.games i }

/-- Operation `submitEntry(imageUri)` called by `sender` at time `now`
(`block.timestamp`).  The incoming `safeTransferFrom` of the entry fee is
reflected in the pool increase. -/
def submitEntry (s : ContractState) (now sender : Nat) (uri : String) :
    Except PrizeErr ContractState :=
  let g := s.games s.currentGameId
  if now < g.startTime ∨ g.endTime < now then .error .GameNotActive
  else if s.hasEntered s.currentGameId sender then .error .AlreadyEntered
  else
    .ok { s with
      games := fun i =>
        if i = s.currentGameId then
          { g with prizePool := g.prizePool + ENTRY_FEE
                   entryCount := g.entryCount + 1 }
        else s.games i
      hasEntered := fun i p =>
        if i = s.currentGameId ∧ p = sender then true else s.hasEntered i p
      gameEntries := fun i =>
        if i = s.currentGameId then
          s.gameEntries i ++ [{ player := sender, imageUri := uri
                                timestamp := now, score := 0 }]
        else s.gameEntries i }

/-- Operation `finalizeGame(gameId, winnerIndex)` at time `now`.  `List.get?` returns
`none` exactly when `winnerIndex >= entries.length`, the original code
`InvalidWinner` condition. -/
def finalizeGame (s : ContractState) (now gameId winnerIndex : Nat) :
    Except PrizeErr ContractState :=
  let g := s.games gameId
  if now < g.endTime then .error .GameNotEnded
  else if g.finalized then .error .GameAlreadyFinalized
  else if g.entryCount = 0 then .error .NoEntries
  else
    match (s.gameEntries gameId).get? winnerIndex with
    | none => .error .InvalidWinner
    | some e =>
      let platformFee := g.prizePool * PLATFORM_FEE_BPS / BPS_DENOMINATOR
      let winnerPrize := g.prizePool - platformFee
      .ok { s with
        games := fun i =>
          if i = gameId then { g with winner := e.player, finalized := true }
          else s.games i
        payouts := s.payouts ++
          [{ gameId := gameId, recipient := e.player, amount := winnerPrize },
           { gameId := gameId, recipient := s.platformWallet, amount := platformFee }] }

/-- One external call to the contract.  Each carries its own
`block.timestamp`. -/
inductive Act
  | start (now duration : Nat)
  | submit (now sender : Nat) (uri : String)
  | finalize (now gameId winnerIndex : Nat)

/-- Transaction semantics: a reverted call leaves storage unchanged. -/
def applyAct (s : ContractState) : Act → ContractState
  | .start now d => startGame s now d
  | .submit now p u =>
    match submitEntry s now p u with
    | .ok t => t
    | .error _ => s
  | .finalize now g w =>
    match finalizeGame s now g w with
    | .ok t => t
    | .error _ => s

/-- A sequence of external calls. -/
def runActs (s : ContractState) (l : List Act) : ContractState :=
  l.foldl applyAct s

/-- The payouts issued on behalf of game `gid`. -/
def payoutsFor (gid : Nat) (s : ContractState) : List Payout :=
  s.payouts.filter (fun p => p.gameId == gid)

/-- Games beyond `currentGameId` are untouched storage. -/
def FreshInv (s : ContractState) : Prop :=
  ∀ g, s.currentGameId < g → s.games g = defaultGame

/-- An unfinalized game has no payouts. -/
def PayoutInv (s : ContractState) : Prop :=
  ∀ g, (s.games g).finalized = false → payoutsFor g s = []

def Good (s : ContractState) : Prop := FreshInv s ∧ PayoutInv s

end PrizePool

/-! Section: the payment verifier (backend/services/x402-payment.ts) -/

namespace X402

def ENTRY_FEE : Nat := 50000

/-- keccak256 of the ERC20 `Transfer(address,address,uint256)` event, as
hard-coded in `verifyPayment`. -/
def transferTopic : String :=
  "0xddf252ad1be2c89b69c2b068fc378daa952ba7f163c4a11628f55a4df523b3ef"

/-- One entry of `receipt.logs`.  `data` is the already-decoded `uint256`
payload (`BigInt(transferLog.data)` in the source). -/
structure TxLog where
  address : String
  topics : List String
  data : Nat
  deriving DecidableEq

/-- The transaction receipt returned by `getTransactionReceipt`.
`statusSuccess` models `receipt.status == success`. -/
structure Receipt where
  statusSuccess : Bool
  logs : List TxLog
  deriving DecidableEq

/-- The fields of `X402PaymentService` that `verifyPayment` reads. -/
structure PayService where
  usdcAddress : String
  prizePoolAddress : String
  deriving DecidableEq

/-- The `PaymentVerification` result record of the source. -/
structure PaymentVerification where
  valid : Bool
  amount : Option Nat
  errMsg : Option String
  deriving DecidableEq

/-- The log predicate of `verifyPayment`:
`log.address.toLowerCase() === usdc.toLowerCase() && log.topics[0] ===
transferTopic && log.topics[2]?.toLowerCase().includes(pool.slice(2).toLowerCase())`.
A missing `topics[2]` makes the optional chain falsy. -/
def logMatches (svc : PayService) (lg : TxLog) : Bool :=
  strLower lg.address == strLower svc.usdcAddress
  && lg.topics.get? 0 == some transferTopic
  && (match lg.topics.get? 2 with
      | some t => strContainsSub (strLower t) (strLower (svc.prizePoolAddress.drop 2))
      | none => false)

/-- Operation `verifyPayment(txHash, expectedAmount)`.  The chain is an oracle from
transaction hash to receipt; a `none` receipt models the RPC call throwing,
which the surrounding `try/catch` turns into an invalid verification.
Note that the function is a pure function of the receipt: it keeps no
record of previously verified hashes and never reads the claimed payer. -/
def verifyPayment (svc : PayService) (chain : String → Option Receipt)
    (txHash : String) (expectedAmount : Nat) : PaymentVerification :=
  match chain txHash with
  | none => { valid := false, amount := none, errMsg := some "Verification failed" }
  | some receipt =>
    if receipt.statusSuccess = false then
      { valid := false, amount := none, errMsg := some "Transaction failed" }
    else
      match receipt.logs.find? (logMatches svc) with
      | none =>
        { valid := false, amount := none
          errMsg := some "No transfer to prize pool found" }
      | some lg =>
        if lg.data < expectedAmount then
          { valid := false, amount := none, errMsg := some "Insufficient amount" }
        else { valid := true, amount := some lg.data, errMsg := none }

end X402

/-! Section: the backend server routes (backend/api/server.ts) -/

namespace Api

/-- The in-memory `Submission` record of the server. -/
structure Submission where
  id : String
  gameId : Nat
  imageUrl : String
  title : String
  playerAddress : String
  timestamp : Nat
  paymentTxHash : String
  deriving DecidableEq

/-- The in-memory `Game` record of the server. -/
structure BGame where
  id : Nat
  startTime : Nat
  endTime : Nat
  submissions : List Submission
  finalized : Bool
  winnerId : Option String

/-- The mutable module state: `currentGameId` and the `games` map. -/
structure ServerState where
  currentGameId : Nat
  games : Nat → Option BGame

/-- Error replies of `POST /api/submit`. -/
inductive SubmitErr
  | noActiveGame
  | alreadyEntered
  | paymentFailed (details : Option String)
  deriving DecidableEq

/-- Route `POST /api/submit` after schema validation: active-game check,
per-player duplicate check (lower-cased address comparison), payment
verification by transaction hash, then append of the submission.  `rndTok`
is the `Math.random()` suffix of the generated id.  Returns the new state
and the 1-based submission position. -/
def apiSubmit (svc : X402.PayService) (chain : String → Option X402.Receipt)
    (st : ServerState) (now : Nat)
    (imageUrl title walletAddress txHash rndTok : String) :
    Except SubmitErr (ServerState × Nat) :=
  match st.games st.currentGameId with
  | none => .error .noActiveGame
  | some game =>
    if game.endTime < now then .error .noActiveGame
    else if game.submissions.any
        (fun s => strLower s.playerAddress == strLower walletAddress) then
      .error .alreadyEntered
    else
      let v := X402.verifyPayment svc chain txHash X402.ENTRY_FEE
      if v.valid = false then .error (.paymentFailed v.errMsg)
      else
        let sub : Submission :=
          { id := "sub_" ++ toString now ++ "_" ++ rndTok
            gameId := st.currentGameId, imageUrl := imageUrl, title := title
            playerAddress := walletAddress, timestamp := now
            paymentTxHash := txHash }
        let game2 := { game with submissions := game.submissions ++ [sub] }
        .ok ({ st with games := fun i =>
                 if i = st.currentGameId then some game2 else st.games i },
             game2.submissions.length)

/-- Route `POST /api/admin/start-game`: rejected with "Previous game not
finalized" when the previous game exists, is not finalized and has at
least one submission; otherwise a fresh game with the requested duration
is installed under `currentGameId + 1`. -/
def apiStartGame (st : ServerState) (now duration : Nat) :
    Except String ServerState :=
  let blocked : Bool :=
    match st.games st.currentGameId with
    | some prev => !prev.finalized && decide (0 < prev.submissions.length)
    | none => false
  if blocked then .error "Previous game not finalized"
  else
    let gid := st.currentGameId + 1
    .ok { currentGameId := gid
          games := fun i =>
            if i = gid then
              some { id := gid, startTime := now, endTime := now + duration
                     submissions := [], finalized := false, winnerId := none }
            else st.games i }

end Api

/-! Section: the AI judge (backend/services/ai-judge.ts) -/

namespace Judge

/-- Interface `ArtSubmission` of ai-judge.ts. -/
structure ArtSubmission where
  id : String
  imageUrl : String
  title : String
  playerAddress : String
  timestamp : Nat
  deriving DecidableEq

/-- Interface `JudgeScore` of ai-judge.ts. -/
structure JudgeScore where
  submissionId : String
  creativity : Nat
  technical : Nat
  aesthetic : Nat
  total : Nat
  feedback : String
  deriving DecidableEq

/-- Interface `JudgeResult` of ai-judge.ts. -/
structure JudgeResult where
  scores : List JudgeScore
  winnerId : String
  winnerScore : Nat
  judgedAt : Nat
  deriving DecidableEq

/-- One per-entry score object of the parsed JSON reply. -/
structure RawScore where
  submissionId : String
  creativity : Nat
  technical : Nat
  aesthetic : Nat
  feedback : String
  deriving DecidableEq

/-- The outcome of the `messages.create` call plus the response-parsing
steps, abstracted as an oracle: the call can throw, the reply can lack a
text block, the text can fail the JSON extraction, or it parses into a
scores array and a claimed winner id. -/
inductive ExtResult
  | fail (msg : String)
  | noText
  | badJson
  | parsed (scores : List RawScore) (winnerId : String)

/-- Returns `true` when the external capability errored or its reply was
unusable. -/
def extUnavailable : ExtResult → Bool
  | .parsed _ _ => false
  | _ => true

/-- The message of the error `judgeSubmissions` throws for each unusable
state of the external capability (unused for a parsed reply). -/
def extErrMsg : ExtResult → String
  | .fail m => m
  | .noText => "No text response from AI judge"
  | .badJson => "Could not parse judge response"
  | .parsed _ _ => ""

/-- Computes `total = creativity + technical + aesthetic` of the score-mapping
step. -/
def mkJudgeScore (r : RawScore) : JudgeScore :=
  { submissionId := r.submissionId, creativity := r.creativity
    technical := r.technical, aesthetic := r.aesthetic
    total := r.creativity + r.technical + r.aesthetic
    feedback := r.feedback }

/-- Stable insertion used to realise
`scores.sort((a, b) => b.total - a.total)`.  ECMAScript
`Array.prototype.sort` is stable, so among equal totals the earlier
element of the input stays first: in the recursion of `sortScoresDesc`
the inserted element originates earlier in the input than everything
already sorted, hence it must be placed before the first element whose
total does not exceed its own (strictly greater totals stay in front). -/
def insertDesc (x : JudgeScore) : List JudgeScore → List JudgeScore
  | [] => [x]
  | y :: t => if y.total ≤ x.total then x :: y :: t else y :: insertDesc x t

def sortScoresDesc : List JudgeScore → List JudgeScore
  | [] => []
  | x :: t => insertDesc x (sortScoresDesc t)

/-- Method `AIJudgeService.judgeSubmissions`: throws on an empty list, returns a
synthetic maximal score for a single entry without consulting the external
capability, and otherwise scores all entries through the capability and
sorts descending by total.  Errors are the thrown `Error` messages. -/
def judgeSubmissions (ext : ExtResult) (subs : List ArtSubmission) (now : Nat) :
    Except String JudgeResult :=
  match subs with
  | [] => .error "No submissions to judge"
  | [s] =>
    .ok { scores := [{ submissionId := s.id, creativity := 10, technical := 10
                       aesthetic := 10, total := 30
                       feedback := "Solo entry - automatic winner!" }]
          winnerId := s.id, winnerScore := 30, judgedAt := now }
  | _ :: _ :: _ =>
    match ext with
    | .fail m => .error m
    | .noText => .error "No text response from AI judge"
    | .badJson => .error "Could not parse judge response"
    | .parsed raws _ =>
      match sortScoresDesc (raws.map mkJudgeScore) with
      | [] => .error "Cannot read scores of an empty reply"
      | top :: rest =>
        .ok { scores := top :: rest, winnerId := top.submissionId
              winnerScore := top.total, judgedAt := now }

/-- Interface `SimpleArtSubmission` of the automation interface. -/
structure SimpleArtSubmission where
  id : String
  imageUrl : String
  title : String
  artist : String
  deriving DecidableEq

/-- Interface `SimpleScore` of the automation interface. -/
structure SimpleScore where
  creativity : Nat
  technique : Nat
  theme : Nat
  reasoning : String
  deriving DecidableEq

/-- The environment of `judgeArtworks`: the optional
`ANTHROPIC_API_KEY`, the external-capability oracle, and the
`Math.random()` stream of the demo path (each draw is
`Math.floor(Math.random() * 5)`, modelled as `rng k % 5`). -/
structure JudgeEnv where
  apiKey : Option String
  ext : ExtResult
  rng : Nat → Nat

def toArt (now : Nat) (s : SimpleArtSubmission) : ArtSubmission :=
  { id := s.id, imageUrl := s.imageUrl, title := s.title
    playerAddress := s.artist, timestamp := now }

def toSimple (j : JudgeScore) : SimpleScore :=
  { creativity := j.creativity, technique := j.technical
    theme := j.aesthetic, reasoning := j.feedback }

/-- The demo fallback of `judgeArtworks`: one random score triple per
submission, `Math.floor(Math.random() * 5) + 5` per field. -/
def randomScores (rng : Nat → Nat) (n : Nat) : List SimpleScore :=
  (List.range n).map (fun i =>
    { creativity := rng (3 * i) % 5 + 5
      technique := rng (3 * i + 1) % 5 + 5
      theme := rng (3 * i + 2) % 5 + 5
      reasoning := "Demo mode - random scoring" })

/-- Function `judgeArtworks`: with no `ANTHROPIC_API_KEY` it silently returns random
demo scores; otherwise it runs `judgeSubmissions` and converts the result,
propagating any thrown error. -/
def judgeArtworks (env : JudgeEnv) (subs : List SimpleArtSubmission) (now : Nat) :
    Except String (List SimpleScore) :=
  match env.apiKey with
  | none => .ok (randomScores env.rng subs.length)
  | some _ =>
    match judgeSubmissions env.ext (subs.map (toArt now)) now with
    | .error e => .error e
    | .ok r => .ok (r.scores.map toSimple)

end Judge

/-! Section: the settlement automation (backend/services/game-automation.ts) -/

namespace Automation

open PrizePool Judge

def entryTotal (s : SimpleScore) : Nat := s.creativity + s.technique + s.theme

/-- The winner-selection loop of `finalizeCurrentGame`:
`scores.forEach((score, index) => { const total = ...; if (total >
highestScore) { highestScore = total; winnerIndex = index } })`, starting
from `winnerIndex = 0`, `highestScore = 0`.  `k` is the index of the head
of the remaining list, `acc` the pair `(winnerIndex, highestScore)`. -/
def selGo (k : Nat) (acc : Nat × Nat) : List SimpleScore → Nat × Nat
  | [] => acc
  | s :: rest =>
    selGo (k + 1) (if acc.2 < entryTotal s then (k, entryTotal s) else acc) rest

def selWin (scores : List SimpleScore) : Nat × Nat := selGo 0 (0, 0) scores

/-- The value returned by a `finalizeCurrentGame` attempt, reduced to the
fields the claims are about: the success flag, the error message, and the
declared winner (`winner.address` and `winner.score` of the source). -/
structure OrchResult where
  success : Bool
  errMsg : Option String
  winnerArtist : Option String
  winnerScore : Option Nat
  deriving DecidableEq

/-- The message of the error thrown by the `readContract` call for
`getGameInfo(uint256)`.  The `PRIZE_POOL_ABI` of game-automation.ts
declares this function, but PrizePool.sol does not define it (its views
are `games`, `getCurrentGame`, `getGameEntries`, `isGameActive`,
`getTimeRemaining`) and the contract has no fallback, so the call always
reverts and `readContract` always throws.  The concrete wording of the
thrown message is a stand-in; only its existence matters. -/
def getGameInfoError : String :=
  "readContract reverted: PrizePool declares no function getGameInfo"

/-- Model of `startNewGame` on the deployed-contract path: the code
submits a transaction for no-argument `startGame()` (the ABI in
game-automation.ts declares `startGame` with empty inputs), but the
contract only defines `startGame(uint256)`; the 4-byte selector matches
no function and there is no fallback, so the transaction reverts
on-chain — and the code never checks the receipt status.  Either way the
contract state is unchanged and no new game is opened. -/
def startNewGameM (c : ContractState) : ContractState := c

/-- Function `finalizeWithoutContract` (the demo path, taken when
`PRIZE_POOL_ADDRESS` is unset or zero): judge the entries stored for the
hard-coded game id 1 and declare a winner by the selection loop — no
contract call and no payout happens here.  A judging error propagates
(the function has no try/catch of its own; `Except.error` models the
throw, caught by the caller).  An out-of-range winner index would make
`entries[winnerIndex]` undefined and the subsequent property access
throw. -/
def finalizeWithoutContractM (em : Nat → List SimpleArtSubmission)
    (env : JudgeEnv) (now : Nat) : Except String OrchResult :=
  let entries := em 1
  if entries.length = 0 then
    .ok { success := false, errMsg := some "No entries"
          winnerArtist := none, winnerScore := none }
  else
    match judgeArtworks env entries now with
    | .error e => .error e
    | .ok scores =>
      match entries.get? (selWin scores).1 with
      | none => .error "TypeError: cannot read properties of undefined"
      | some w =>
        .ok { success := true, errMsg := none
              winnerArtist := some w.artist
              winnerScore := some (selWin scores).2 }

/-- Function `finalizeCurrentGame`.  `deployed` models the configuration
check `PRIZE_POOL_ADDRESS` being set and non-zero.  When it is not, the
demo path `finalizeWithoutContract` runs inside the try block and any
thrown error is caught and reported as failure.  When it is, the code
reads `currentGameId` (a real public getter) and then `getGameInfo`,
which PrizePool.sol does not define: that read always throws (see
`getGameInfoError`), the catch returns failure, and nothing after the
read — the finalized/zero-entry checks, judging, the `finalizeGame`
write, `startNewGame` — is ever reached on this path (assuming
`ADMIN_PRIVATE_KEY` is set; without it `getClients` throws even earlier,
with the same failure-and-unchanged-state outcome, only the message
differs).  The contract state is returned unchanged in every case: this
function never moves funds. -/
def finalizeCurrentGameM (deployed : Bool) (c : ContractState)
    (em : Nat → List SimpleArtSubmission) (env : JudgeEnv) (now : Nat) :
    OrchResult × ContractState :=
  if deployed then
    ({ success := false, errMsg := some getGameInfoError
       winnerArtist := none, winnerScore := none }, c)
  else
    match finalizeWithoutContractM em env now with
    | .error e =>
      ({ success := false, errMsg := some e
         winnerArtist := none, winnerScore := none }, c)
    | .ok r => (r, c)

end Automation

/-! Section: concrete fixtures

Concrete states, oracles and inputs used by the closed witness and
counterexample theorems below. -/

namespace Fixtures

open PrizePool X402 Api Judge Automation

/-- A short contract history: one game of duration 100 opened at time 0,
one entry by player 5 at time 10. -/
def actsW : List Act := [.start 0 100, .submit 10 5 "img"]

def sW : ContractState := runActs (initState 7) actsW

/-- State `sW` after a successful `finalizeGame(1, 0)` at time 200. -/
def s1W : ContractState := applyAct sW (.finalize 200 1 0)

/-- State `sW` after a successful second-player `submitEntry` at time 20. -/
def s2W : ContractState :=
  match submitEntry sW 20 9 "pic" with
  | .ok t => t
  | .error _ => sW

/-- A contract state whose current game (id 1) is active, unfinalized and
has one entry: the previous game is "neither finalized nor empty". -/
def cexC6 : ContractState := runActs (initState 7) [.start 0 1000, .submit 10 5 "img"]

/-- A contract state whose current game (id 1) ended (at 100) with zero
entries. -/
def cexC9 : ContractState := runActs (initState 7) [.start 0 100]

def subsDemo : List SimpleArtSubmission :=
  [{ id := "0", imageUrl := "u1", title := "t1", artist := "0xa" },
   { id := "1", imageUrl := "u2", title := "t2", artist := "0xb" }]

def emDemo : Nat → List SimpleArtSubmission := fun i => if i = 1 then subsDemo else []

def emEmpty : Nat → List SimpleArtSubmission := fun _ => []

/-- Judging environment with no `ANTHROPIC_API_KEY` configured and a
failing external capability; the random stream always draws 0. -/
def envDemo : JudgeEnv :=
  { apiKey := none, ext := .fail "API connection error", rng := fun _ => 0 }

/-- Judging environment with a key configured but the external capability
failing. -/
def envKeyedDown : JudgeEnv :=
  { apiKey := some "sk-ant-key", ext := .fail "API connection error", rng := fun _ => 0 }

/-- The payment service as constructed for Base Sepolia. -/
def svcW : PayService :=
  { usdcAddress := "0x036CbD53842c5426634e7929541eC2318f3dCF7e"
    prizePoolAddress := "0xabcdefabcdefabcdefabcdefabcdefabcdefabcd" }

def txW : String :=
  "0x1111111111111111111111111111111111111111111111111111111111111111"

/-- The recipient topic of the USDC transfer log: 12 zero bytes then the
prize-pool address. -/
def topic2W : String :=
  "0x000000000000000000000000abcdefabcdefabcdefabcdefabcdefabcdefabcd"

/-- The sender topic: an address distinct from every claimed player used
below. -/
def topicSenderW : String :=
  "0x000000000000000000000000cccccccccccccccccccccccccccccccccccccccc"

def logW : TxLog :=
  { address := "0x036cbd53842c5426634e7929541ec2318f3dcf7e"
    topics := [transferTopic, topicSenderW, topic2W]
    data := 50000 }

def receiptW : Receipt := { statusSuccess := true, logs := [logW] }

/-- Chain oracle: exactly one known transaction. -/
def chainW : String → Option Receipt := fun h => if h = txW then some receiptW else none

def pA : String := "0xaaaaaaaaaaaaaaaaaaaaaaaaaaaaaaaaaaaaaaaa"

def pB : String := "0xbbbbbbbbbbbbbbbbbbbbbbbbbbbbbbbbbbbbbbbb"

/-- A fresh active backend game with no submissions. -/
def gApi0 : BGame :=
  { id := 1, startTime := 0, endTime := 1000000
    submissions := [], finalized := false, winnerId := none }

/-- Server state with a fresh active game 1 and no submissions. -/
def stApi0 : ServerState :=
  { currentGameId := 1
    games := fun i => if i = 1 then some gApi0 else none }

/-- State `stApi0` after player `pA` submitted with payment proof `txW`. -/
def stApi1 : ServerState :=
  match apiSubmit svcW chainW stApi0 10 "u" "t" pA txW "r1" with
  | .ok (t, _) => t
  | .error _ => stApi0

/-- State `stApi1` after player `pB` submitted reusing the same proof `txW`. -/
def stApi2 : ServerState :=
  match apiSubmit svcW chainW stApi1 20 "u2" "t2" pB txW "r2" with
  | .ok (t, _) => t
  | .error _ => stApi1

/-- The (player, paymentTxHash) pairs of the recorded submissions of game 1. -/
def entriesOf (st : ServerState) : List (String × String) :=
  match st.games 1 with
  | some g => g.submissions.map (fun s => (s.playerAddress, s.paymentTxHash))
  | none => []

/-- Three stored entries in admission order; ids are the positional
indices the automation assigns (`id: i.toString()`). -/
def subsC4 : List SimpleArtSubmission :=
  [{ id := "0", imageUrl := "u0", title := "t0", artist := "0xfirst" },
   { id := "1", imageUrl := "u1", title := "t1", artist := "0xsecond" },
   { id := "2", imageUrl := "u2", title := "t2", artist := "0xthird" }]

def emC4 : Nat → List SimpleArtSubmission := fun i => if i = 1 then subsC4 else []

/-- The parsed judge reply for `subsC4`, in admission order: sub-scores
7/7/7, 9/9/9, 9/9/9, i.e. totals 21, 27, 27 with entry 1 admitted before
entry 2. -/
def rawsC4 : List RawScore :=
  [{ submissionId := "0", creativity := 7, technical := 7, aesthetic := 7
     feedback := "r0" },
   { submissionId := "1", creativity := 9, technical := 9, aesthetic := 9
     feedback := "r1" },
   { submissionId := "2", creativity := 9, technical := 9, aesthetic := 9
     feedback := "r2" }]

/-- Judging environment with a key configured and the capability replying
with `rawsC4`. -/
def envC4 : JudgeEnv :=
  { apiKey := some "sk-ant-key", ext := .parsed rawsC4 "1", rng := fun _ => 0 }

/-- Extracts the winner id from a `judgeSubmissions` outcome. -/
def winnerIdOf : Except String JudgeResult → Option String
  | .ok r => some r.winnerId
  | .error _ => none

end Fixtures

/-! Section: theorems -/

namespace PrizePool

/-- Characterization of a successful `submitEntry`: the call leaves id,
wallet and payouts alone, only touches the current game record (and there
only pool and count), and marks the sender as entered. -/
theorem submitEntry_ok {s : ContractState} {now sender : Nat} {uri : String}
    {s' : ContractState} (h : submitEntry s now sender uri = .ok s') :
    s'.platformWallet = s.platformWallet
    ∧ s'.currentGameId = s.currentGameId
    ∧ s'.payouts = s.payouts
    ∧ (∀ g, g ≠ s.currentGameId → s'.games g = s.games g)
    ∧ (∀ g, (s'.games g).finalized = (s.games g).finalized
        ∧ (s'.games g).endTime = (s.games g).endTime
        ∧ (s'.games g).startTime = (s.games g).startTime)
    ∧ s'.hasEntered s.currentGameId sender = true := by
  simp only [submitEntry] at h
  split at h
  · exact Except.noConfusion h
  split at h
  · exact Except.noConfusion h
  injection h with h
  subst h
  refine ⟨rfl, rfl, rfl, ?_, ?_, ?_⟩
  · intro g hg; simp [hg]
  · intro g
    by_cases hg : g = s.currentGameId <;> simp [hg]
  · simp

/-- A second `submitEntry` by a player already marked as entered fails
with `AlreadyEntered`, provided the call is inside the game window (the
window check comes first in the source). -/
theorem submitEntry_already {s : ContractState} {now sender : Nat} {uri : String}
    (hwin : ¬(now < (s.games s.currentGameId).startTime
              ∨ (s.games s.currentGameId).endTime < now))
    (hent : s.hasEntered s.currentGameId sender = true) :
    submitEntry s now sender uri = .error .AlreadyEntered := by
  simp only [submitEntry]
  rw [if_neg hwin, if_pos hent]

/-- Characterization of a successful `finalizeGame`. -/
theorem finalizeGame_ok {s : ContractState} {now gid wi : Nat}
    {s' : ContractState} (h : finalizeGame s now gid wi = .ok s') :
    (s.games gid).finalized = false
    ∧ (s.games gid).endTime ≤ now
    ∧ (s.games gid).entryCount ≠ 0
    ∧ ∃ e, (s.gameEntries gid).get? wi = some e
        ∧ s' = { s with
            games := fun i =>
              if i = gid then
                { s.games gid with winner := e.player, finalized := true }
              else s.games i
            payouts := s.payouts ++
              [{ gameId := gid, recipient := e.player
                 amount := (s.games gid).prizePool
                   - (s.games gid).prizePool * PLATFORM_FEE_BPS / BPS_DENOMINATOR },
               { gameId := gid, recipient := s.platformWallet
                 amount := (s.games gid).prizePool * PLATFORM_FEE_BPS / BPS_DENOMINATOR }] } := by
  simp only [finalizeGame] at h
  split at h
  · exact Except.noConfusion h
  rename_i hlt
  split at h
  · exact Except.noConfusion h
  rename_i hfin
  split at h
  · exact Except.noConfusion h
  rename_i hcnt
  split at h
  · exact Except.noConfusion h
  rename_i e heq
  injection h with h
  subst h
  refine ⟨?_, Nat.not_lt.mp hlt, hcnt, e, heq, rfl⟩
  simpa using hfin

/-- Calling `finalizeGame` on an already-finalized game whose deadline passed
fails with `GameAlreadyFinalized`. -/
theorem finalizeGame_already {s : ContractState} {now gid wi : Nat}
    (hfin : (s.games gid).finalized = true)
    (ht : (s.games gid).endTime ≤ now) :
    finalizeGame s now gid wi = .error .GameAlreadyFinalized := by
  simp only [finalizeGame]
  rw [if_neg (Nat.not_lt.mpr ht), if_pos hfin]

/-- Calling `finalizeGame` on an ended game with zero entries fails with
`NoEntries`. -/
theorem finalizeGame_noEntries {s : ContractState} {now gid wi : Nat}
    (hfin : (s.games gid).finalized = false)
    (hcnt : (s.games gid).entryCount = 0)
    (ht : (s.games gid).endTime ≤ now) :
    finalizeGame s now gid wi = .error .NoEntries := by
  simp only [finalizeGame]
  rw [if_neg (Nat.not_lt.mpr ht), if_neg (by simp [hfin]), if_pos hcnt]

theorem runActs_cons (s : ContractState) (a : Act) (t : List Act) :
    runActs s (a :: t) = runActs (applyAct s a) t := rfl

theorem initState_good (pw : Nat) : Good (initState pw) := by
  constructor
  · intro g _; rfl
  · intro g _; rfl

theorem startGame_good {s : ContractState} (hG : Good s) (now d : Nat) :
    Good (startGame s now d) := by
  obtain ⟨hF, hP⟩ := hG
  constructor
  · intro g hg
    have h1 : g ≠ s.currentGameId + 1 := by
      simp only [startGame] at hg; omega
    have h2 : s.currentGameId < g := by
      simp only [startGame] at hg; omega
    simp [startGame, h1, hF g h2]
  · intro g hg
    by_cases h1 : g = s.currentGameId + 1
    · subst h1
      have : (s.games (s.currentGameId + 1)).finalized = false := by
        rw [hF _ (Nat.lt_succ_self _)]; rfl
      simpa [startGame, payoutsFor] using hP _ this
    · simp only [startGame, h1, if_neg h1] at hg ⊢
      simpa [payoutsFor] using hP g hg

theorem startGame_pres {s : ContractState} (hG : Good s) {gid : Nat}
    (hfin : (s.games gid).finalized = true) (now d : Nat) :
    (startGame s now d).games gid = s.games gid
    ∧ payoutsFor gid (startGame s now d) = payoutsFor gid s := by
  have h1 : gid ≠ s.currentGameId + 1 := by
    intro h
    rw [h, hG.1 _ (Nat.lt_succ_self _)] at hfin
    exact Bool.noConfusion hfin
  exact ⟨by simp [startGame, h1], rfl⟩

theorem submitEntry_good {s s' : ContractState} {now sender : Nat} {uri : String}
    (hG : Good s) (h : submitEntry s now sender uri = .ok s') : Good s' := by
  obtain ⟨hpw, hcur, hpay, hother, hfields, _⟩ := submitEntry_ok h
  constructor
  · intro g hg
    rw [hcur] at hg
    have hne : g ≠ s.currentGameId := Nat.ne_of_gt hg
    rw [hother g hne]
    exact hG.1 g hg
  · intro g hg
    have : (s.games g).finalized = false := by rw [← (hfields g).1]; exact hg
    have := hG.2 g this
    simpa [payoutsFor, hpay] using this

theorem finalizeGame_good {s s' : ContractState} {now gid wi : Nat}
    (hG : Good s) (h : finalizeGame s now gid wi = .ok s') : Good s' := by
  obtain ⟨hfin, _, hcnt, e, _, hs'⟩ := finalizeGame_ok h
  have hgid : ¬ s.currentGameId < gid := by
    intro hlt
    rw [hG.1 gid hlt] at hcnt
    exact hcnt rfl
  subst hs'
  constructor
  · intro g hg
    simp only at hg
    have hne : g ≠ gid := by intro hgg; subst hgg; exact hgid hg
    simpa [hne] using hG.1 g hg
  · intro g hg
    simp only at hg
    by_cases hne : g = gid
    · subst hne; simp at hg
    · rw [if_neg hne] at hg
      have h0 := hG.2 g hg
      simp only [payoutsFor] at h0
      have hb : (gid == g) = false :=
        beq_eq_false_iff_ne.mpr (fun hh => hne hh.symm)
      simp only [payoutsFor, List.filter_append, h0]
      simp [List.filter, hb]

/-- One call preserves `Good`. -/
theorem applyAct_good {s : ContractState} (hG : Good s) (a : Act) :
    Good (applyAct s a) := by
  cases a with
  | start now d => exact startGame_good hG now d
  | submit now p u =>
    simp only [applyAct]
    cases h : submitEntry s now p u with
    | ok t => exact submitEntry_good hG h
    | error e => exact hG
  | finalize now g w =>
    simp only [applyAct]
    cases h : finalizeGame s now g w with
    | ok t => exact finalizeGame_good hG h
    | error e => exact hG

/-- One call preserves the record and payouts of a finalized game. -/
theorem applyAct_pres {s : ContractState} (hG : Good s) {gid : Nat}
    (hfin : (s.games gid).finalized = true) (a : Act) :
    ((applyAct s a).games gid).finalized = true
    ∧ ((applyAct s a).games gid).endTime = (s.games gid).endTime
    ∧ payoutsFor gid (applyAct s a) = payoutsFor gid s := by
  cases a with
  | start now d =>
    obtain ⟨h1, h2⟩ := startGame_pres hG hfin now d
    exact ⟨by rw [show applyAct s (.start now d) = startGame s now d from rfl, h1, hfin],
           by rw [show applyAct s (.start now d) = startGame s now d from rfl, h1],
           h2⟩
  | submit now p u =>
    simp only [applyAct]
    cases h : submitEntry s now p u with
    | ok t =>
      obtain ⟨_, _, hpay, _, hfields, _⟩ := submitEntry_ok h
      exact ⟨by rw [(hfields gid).1, hfin], (hfields gid).2.1,
             by simp [payoutsFor, hpay]⟩
    | error e => exact ⟨hfin, rfl, rfl⟩
  | finalize now g w =>
    simp only [applyAct]
    cases h : finalizeGame s now g w with
    | ok t =>
      obtain ⟨hfin0, _, _, e, _, ht⟩ := finalizeGame_ok h
      have hne : gid ≠ g := by
        intro hgg; subst hgg; rw [hfin] at hfin0; exact Bool.noConfusion hfin0
      have hb : (g == gid) = false := beq_eq_false_iff_ne.mpr (Ne.symm hne)
      subst ht
      refine ⟨?_, ?_, ?_⟩
      · simpa [hne] using hfin
      · simp [hne]
      · simp only [payoutsFor, List.filter_append]
        simp [List.filter, hb]
    | error e => exact ⟨hfin, rfl, rfl⟩

/-- A whole trace preserves the record and payouts of a finalized game. -/
theorem runActs_pres {s : ContractState} (hG : Good s) {gid : Nat}
    (hfin : (s.games gid).finalized = true) (l : List Act) :
    ((runActs s l).games gid).finalized = true
    ∧ ((runActs s l).games gid).endTime = (s.games gid).endTime
    ∧ payoutsFor gid (runActs s l) = payoutsFor gid s := by
  induction l generalizing s with
  | nil => exact ⟨hfin, rfl, rfl⟩
  | cons a t ih =>
    obtain ⟨h1, h2, h3⟩ := applyAct_pres hG hfin a
    obtain ⟨k1, k2, k3⟩ := ih (applyAct_good hG a) h1
    rw [runActs_cons]
    exact ⟨k1, by rw [k2, h2], by rw [k3, h3]⟩

theorem runActs_good {s : ContractState} (hG : Good s) (l : List Act) :
    Good (runActs s l) := by
  induction l generalizing s with
  | nil => exact hG
  | cons a t ih => exact ih (applyAct_good hG a)

theorem fee_le_pool (P : Nat) : P * PLATFORM_FEE_BPS / BPS_DENOMINATOR ≤ P := by
  have h : P * PLATFORM_FEE_BPS ≤ P * BPS_DENOMINATOR :=
    Nat.mul_le_mul_left P (by norm_num [PLATFORM_FEE_BPS, BPS_DENOMINATOR])
  calc P * PLATFORM_FEE_BPS / BPS_DENOMINATOR
      ≤ P * BPS_DENOMINATOR / BPS_DENOMINATOR := Nat.div_le_div_right h
    _ = P := Nat.mul_div_cancel P (by norm_num [BPS_DENOMINATOR])

end PrizePool

open PrizePool X402 Api Judge Automation Fixtures

/-- Claim C1: once a game is finalized by a successful `finalizeGame`, the
flag is set, every later `finalizeGame` call on the same game id (at a
time not before the successful call, as block timestamps are
non-decreasing) fails with `GameAlreadyFinalized`, and the winner-prize
and platform-fee transfers for that game are executed exactly once: no
payout for the game exists before the successful call, the call issues
exactly the two transfers, and no trace of further contract calls ever
adds a payout for that game. -/
theorem claim_C1_finalize_once (pw : Nat) (acts0 : List Act) (now gid wi : Nat)
    (s' : ContractState)
    (h : finalizeGame (runActs (initState pw) acts0) now gid wi = .ok s') :
    (s'.games gid).finalized = true
    ∧ payoutsFor gid (runActs (initState pw) acts0) = []
    ∧ (payoutsFor gid s').length = 2
    ∧ ∀ acts now2 wi2, now ≤ now2 →
        finalizeGame (runActs s' acts) now2 gid wi2
          = .error .GameAlreadyFinalized
        ∧ payoutsFor gid (runActs s' acts) = payoutsFor gid s' := by
  have hG : Good (runActs (initState pw) acts0) :=
    runActs_good (initState_good pw) acts0
  obtain ⟨hfin0, hend, hcnt, e, heq, hs'⟩ := finalizeGame_ok h
  have hG' : Good s' := finalizeGame_good hG h
  have hpay0 : payoutsFor gid (runActs (initState pw) acts0) = [] := hG.2 gid hfin0
  have hflag : (s'.games gid).finalized = true := by rw [hs']; simp
  have hendpres : (s'.games gid).endTime
      = ((runActs (initState pw) acts0).games gid).endTime := by rw [hs']; simp
  have hlen : (payoutsFor gid s').length = 2 := by
    rw [hs']
    simp only [payoutsFor] at hpay0 ⊢
    simp [List.filter_append, hpay0, List.filter]
  refine ⟨hflag, hpay0, hlen, ?_⟩
  intro acts now2 wi2 hle
  obtain ⟨k1, k2, k3⟩ := runActs_pres hG' hflag acts
  refine ⟨?_, k3⟩
  apply finalizeGame_already k1
  rw [k2, hendpres]
  omega

/-- Witness for C1: in the concrete history `sW` (game 1 opened at 0 for
100 time units, one entry), `finalizeGame(1, 0)` at time 200 succeeds, a
later call (even after another state-changing call) fails with
`GameAlreadyFinalized`, and game 1 has exactly the two payouts. -/
theorem claim_C1_witness :
    isOkE (finalizeGame sW 200 1 0) = true
    ∧ (s1W.games 1).finalized = true
    ∧ finalizeGame (runActs s1W [Act.start 300 100]) 400 1 0
        = Except.error PrizeErr.GameAlreadyFinalized
    ∧ (payoutsFor 1 s1W).length = 2 := by
  have h : finalizeGame sW 200 1 0 = Except.ok s1W := rfl
  have main := claim_C1_finalize_once 7 actsW 200 1 0 s1W h
  exact ⟨by rw [h]; rfl, main.1,
         (main.2.2.2 [Act.start 300 100] 400 0 (by omega)).1, main.2.2.1⟩

/-- Claim C2: for a successful `finalizeGame`, the platform fee is exactly
`pool * PLATFORM_FEE_BPS / BPS_DENOMINATOR` in integer (floor) division,
the winner prize is the pool minus that fee, the two amounts are the two
issued transfers, and fee plus prize sums exactly to the pool. -/
theorem claim_C2_fee_arithmetic (s s' : ContractState) (now gid wi : Nat)
    (e : Entry) (hw : (s.gameEntries gid).get? wi = some e)
    (h : finalizeGame s now gid wi = .ok s') :
    s'.payouts = s.payouts ++
      [{ gameId := gid, recipient := e.player
         amount := (s.games gid).prizePool
           - (s.games gid).prizePool * PLATFORM_FEE_BPS / BPS_DENOMINATOR },
       { gameId := gid, recipient := s.platformWallet
         amount := (s.games gid).prizePool * PLATFORM_FEE_BPS / BPS_DENOMINATOR }]
    ∧ (s.games gid).prizePool * PLATFORM_FEE_BPS / BPS_DENOMINATOR
        + ((s.games gid).prizePool
            - (s.games gid).prizePool * PLATFORM_FEE_BPS / BPS_DENOMINATOR)
        = (s.games gid).prizePool := by
  obtain ⟨_, _, _, e', heq', hs'⟩ := finalizeGame_ok h
  rw [hw] at heq'
  obtain rfl : e' = e := (Option.some.inj heq').symm
  constructor
  · rw [hs']
  · have hfee := fee_le_pool (s.games gid).prizePool
    omega

/-- Witness for C2: the concrete finalize of `sW` (pool 50000) pays the
winner 45000 and the platform 5000, and 5000 + 45000 = 50000. -/
theorem claim_C2_witness :
    s1W.payouts = [{ gameId := 1, recipient := 5, amount := 45000 },
                   { gameId := 1, recipient := 7, amount := 5000 }]
    ∧ 50000 * PLATFORM_FEE_BPS / BPS_DENOMINATOR = 5000
    ∧ 5000 + 45000 = 50000 := by
  have h : finalizeGame sW 200 1 0 = Except.ok s1W := rfl
  have hw : (sW.gameEntries 1).get? 0
      = some { player := 5, imageUri := "img", timestamp := 10, score := 0 } := rfl
  have main := claim_C2_fee_arithmetic sW s1W 200 1 0 _ hw h
  exact ⟨main.1.trans (by rfl), by norm_num [PLATFORM_FEE_BPS, BPS_DENOMINATOR],
         by norm_num⟩

/-- Claim C5: after a successful `submitEntry` by a player, a second
`submitEntry` by the same player in the same (still current, still in its
window) game fails with `AlreadyEntered`, and the failed call leaves the
whole contract state — in particular pool and entry count — unchanged. -/
theorem claim_C5_one_entry_per_player (s s' : ContractState)
    (now now2 sender : Nat) (uri uri2 : String)
    (h : submitEntry s now sender uri = .ok s')
    (hwin : ¬(now2 < (s'.games s'.currentGameId).startTime
              ∨ (s'.games s'.currentGameId).endTime < now2)) :
    submitEntry s' now2 sender uri2 = .error .AlreadyEntered
    ∧ applyAct s' (.submit now2 sender uri2) = s' := by
  obtain ⟨_, hcur, _, _, _, hent⟩ := submitEntry_ok h
  have hent' : s'.hasEntered s'.currentGameId sender = true := by
    rw [hcur]; exact hent
  have herr := @submitEntry_already s' now2 sender uri2 hwin hent'
  exact ⟨herr, by simp [applyAct, herr]⟩

/-- Witness for C5: player 9 enters game 1 of `sW` at time 20; the second
submit at time 30 fails with `AlreadyEntered` and the state is unchanged. -/
theorem claim_C5_witness :
    submitEntry s2W 30 9 "pic2" = Except.error PrizeErr.AlreadyEntered
    ∧ applyAct s2W (.submit 30 9 "pic2") = s2W := by
  have h : submitEntry sW 20 9 "pic" = Except.ok s2W := rfl
  have hwin : ¬(30 < (s2W.games s2W.currentGameId).startTime
                ∨ (s2W.games s2W.currentGameId).endTime < 30) := by decide
  exact claim_C5_one_entry_per_player sW s2W 20 30 9 "pic" "pic2" h hwin

/-- Counterexample for C6: the contract-level `startGame` has no guard at
all.  In the concrete state `cexC6` the previous game (id 1) exists, is
not finalized and has one entry, yet `startGame` succeeds and installs a
new current game with id 2 — it does not fail with `GameAlreadyActive`
(the function cannot revert), refuting the claim at this input. -/
theorem claim_C6_counterexample :
    cexC6.currentGameId = 1
    ∧ (cexC6.games 1).finalized = false
    ∧ (cexC6.games 1).entryCount = 1
    ∧ (startGame cexC6 500 1000).currentGameId = 2
    ∧ ((startGame cexC6 500 1000).games 2).startTime = 500
    ∧ ((startGame cexC6 500 1000).games 2).finalized = false
    ∧ ((startGame cexC6 500 1000).games 1).finalized = false := by
  decide

/-- Amended C6: the guard lives only in the backend admin route.
`POST /api/admin/start-game` is rejected (with "Previous game not
finalized") exactly when the previous game exists, is not finalized and
has at least one submission; the contract-level `startGame` itself
performs no such check. -/
theorem claim_C6_route_guard (st : ServerState) (now duration : Nat) :
    isErrE (apiStartGame st now duration) = true
      ↔ ∃ prev, st.games st.currentGameId = some prev
          ∧ prev.finalized = false ∧ prev.submissions ≠ [] := by
  cases hprev : st.games st.currentGameId with
  | none => simp [apiStartGame, hprev, isErrE]
  | some prev =>
    by_cases hf : prev.finalized
    · simp [apiStartGame, hprev, isErrE, hf]
    · by_cases hs : prev.submissions = []
      · simp [apiStartGame, hprev, isErrE, hf, hs]
      · simp [apiStartGame, hprev, isErrE, hf, hs, List.length_pos]

theorem mem_of_getq {α : Type} {l : List α} {n : Nat} {a : α}
    (h : l.get? n = some a) : a ∈ l := by
  induction l generalizing n with
  | nil => exact Option.noConfusion h
  | cons b t ih =>
    cases n with
    | zero =>
      simp only [List.get?] at h
      exact (Option.some.inj h) ▸ List.mem_cons_self b t
    | succ m => exact List.mem_cons_of_mem b (ih h)

/-- Characterization of the winner-selection loop: started at index `k`
with accumulator `(i0, h0)`, either no element beats `h0` and the
accumulator survives, or the result is the first element that strictly
beats `h0` and every later element (every earlier one is strictly below
it, every element is at most it). -/
theorem selGo_char (l : List SimpleScore) : ∀ k i0 h0 : Nat,
    (selGo k (i0, h0) l = (i0, h0) ∧ ∀ s ∈ l, entryTotal s ≤ h0)
    ∨ (∃ j s, l.get? j = some s
        ∧ selGo k (i0, h0) l = (k + j, entryTotal s)
        ∧ h0 < entryTotal s
        ∧ (∀ m t, m < j → l.get? m = some t → entryTotal t < entryTotal s)
        ∧ (∀ t ∈ l, entryTotal t ≤ entryTotal s)) := by
  induction l with
  | nil =>
    intro k i0 h0
    left
    exact ⟨rfl, by simp⟩
  | cons a rest ih =>
    intro k i0 h0
    by_cases hlt : h0 < entryTotal a
    · have hgo : selGo k (i0, h0) (a :: rest)
          = selGo (k + 1) (k, entryTotal a) rest := by
        simp [selGo, hlt]
      rcases ih (k + 1) k (entryTotal a) with ⟨heq, hall⟩ | ⟨j, s, hget, heq, hgt, hml, hall⟩
      · right
        refine ⟨0, a, rfl, ?_, hlt, ?_, ?_⟩
        · rw [hgo, heq]; simp
        · intro m t hm _
          exact absurd hm (Nat.not_lt_zero m)
        · intro t ht
          rcases List.mem_cons.mp ht with rfl | hmem
          · exact le_refl _
          · exact hall t hmem
      · right
        refine ⟨j + 1, s, by simpa using hget, ?_, lt_trans hlt hgt, ?_, ?_⟩
        · rw [hgo, heq]
          have harith : k + 1 + j = k + (j + 1) := by omega
          rw [harith]
        · intro m t hm hget'
          cases m with
          | zero =>
            simp only [List.get?] at hget'
            rw [← Option.some.inj hget']
            exact hgt
          | succ m' =>
            exact hml m' t (Nat.lt_of_succ_lt_succ hm) (by simpa using hget')
        · intro t ht
          rcases List.mem_cons.mp ht with rfl | hmem
          · exact le_of_lt hgt
          · exact hall t hmem
    · have hgo : selGo k (i0, h0) (a :: rest) = selGo (k + 1) (i0, h0) rest := by
        simp [selGo, hlt]
      rcases ih (k + 1) i0 h0 with ⟨heq, hall⟩ | ⟨j, s, hget, heq, hgt, hml, hall⟩
      · left
        refine ⟨by rw [hgo, heq], ?_⟩
        intro t ht
        rcases List.mem_cons.mp ht with rfl | hmem
        · exact Nat.le_of_not_lt hlt
        · exact hall t hmem
      · right
        refine ⟨j + 1, s, by simpa using hget, ?_, hgt, ?_, ?_⟩
        · rw [hgo, heq]
          have harith : k + 1 + j = k + (j + 1) := by omega
          rw [harith]
        · intro m t hm hget'
          cases m with
          | zero =>
            simp only [List.get?] at hget'
            rw [← Option.some.inj hget']
            exact lt_of_le_of_lt (Nat.le_of_not_lt hlt) hgt
          | succ m' =>
            exact hml m' t (Nat.lt_of_succ_lt_succ hm) (by simpa using hget')
        · intro t ht
          rcases List.mem_cons.mp ht with rfl | hmem
          · exact le_trans (Nat.le_of_not_lt hlt) (le_of_lt hgt)
          · exact hall t hmem

/-- Claim C4 exhibit (code bug): at totals 21/27/27 in admission order
(the entry with id 1 admitted before the one with id 2),
`judgeSubmissions` itself still picks the correct winner by id — id "1",
the earlier of the tied pair, since the stable descending sort keeps the
earlier maximal entry first — but `judgeArtworks` hands the automation
the scores SORTED by total, decorrelated from the admission-ordered
entries array; the selection loop then maximises positionally over the
sorted list (always index 0) and `entries[winnerIndex]` declares the
FIRST-ADMITTED entry ("0xfirst", whose own total is 21) the winner with
the top score 27 attached, instead of entry 2 ("0xsecond") as the claim
requires. -/
theorem claim_C4_sorted_index_bug :
    rawsC4.map (fun r => r.creativity + r.technical + r.aesthetic)
      = [21, 27, 27]
    ∧ winnerIdOf (judgeSubmissions envC4.ext (subsC4.map (toArt 200)) 200)
        = some "1"
    ∧ judgeArtworks envC4 subsC4 200
        = .ok [{ creativity := 9, technique := 9, theme := 9, reasoning := "r1" },
               { creativity := 9, technique := 9, theme := 9, reasoning := "r2" },
               { creativity := 7, technique := 7, theme := 7, reasoning := "r0" }]
    ∧ finalizeWithoutContractM emC4 envC4 200
        = .ok { success := true, errMsg := none
                winnerArtist := some "0xfirst", winnerScore := some 27 }
    ∧ (subsC4.map SimpleArtSubmission.artist).get? 1 = some "0xsecond" := by
  refine ⟨rfl, rfl, rfl, rfl, rfl⟩

/-- Claim C8: `judgeSubmissions` on a single entry returns the synthetic
maximal score (sub-scores 10/10/10, total 30) and the entry as winner,
for every state of the external capability — i.e. without any external
call. -/
theorem claim_C8_single_entry_autowin (ext : ExtResult) (now : Nat)
    (s : ArtSubmission) :
    judgeSubmissions ext [s] now
      = .ok { scores := [{ submissionId := s.id, creativity := 10
                           technical := 10, aesthetic := 10, total := 30
                           feedback := "Solo entry - automatic winner!" }]
              winnerId := s.id, winnerScore := 30, judgedAt := now } := rfl

/-- Counterexample for C7: with no `ANTHROPIC_API_KEY` the external
judging capability cannot be consulted at all (and the oracle here would
even error), yet judging does not fail: `judgeArtworks` silently
substitutes random demo scores, and the finalize attempt that reaches
judging — the demo path `finalizeWithoutContract` — succeeds and declares
a winner picked from those substituted scores, refuting the claim.  (No
payout occurs on this path; the deployed-contract path always fails
before judging because its `getGameInfo` read reverts.) -/
theorem claim_C7_counterexample :
    judgeArtworks envDemo subsDemo 200
      = .ok [{ creativity := 5, technique := 5, theme := 5
               reasoning := "Demo mode - random scoring" },
             { creativity := 5, technique := 5, theme := 5
               reasoning := "Demo mode - random scoring" }]
    ∧ (finalizeCurrentGameM false (initState 7) emDemo envDemo 200).1
        = { success := true, errMsg := none
            winnerArtist := some "0xa", winnerScore := some 15 } := by
  exact ⟨rfl, rfl⟩

/-- Amended C7: when a judging key is configured and the external
capability errors or returns an unusable reply, `judgeArtworks` throws
the corresponding error, the demo finalize attempt fails with no winner
declared and the contract state untouched, and the deployed-contract
attempt fails as well (its `getGameInfo` read always throws before
judging), likewise leaving the state untouched — so no irreversible step
ever follows a judging failure.  Without a key, however, the code
substitutes random scores instead of failing (see the counterexample). -/
theorem claim_C7_amended (c : ContractState)
    (em : Nat → List SimpleArtSubmission) (env : JudgeEnv) (k : String)
    (now : Nat)
    (hkey : env.apiKey = some k)
    (hext : extUnavailable env.ext = true)
    (hlen : 2 ≤ (em 1).length) :
    judgeArtworks env (em 1) now = .error (extErrMsg env.ext)
    ∧ finalizeCurrentGameM false c em env now
        = ({ success := false, errMsg := some (extErrMsg env.ext)
             winnerArtist := none, winnerScore := none }, c)
    ∧ (finalizeCurrentGameM true c em env now).1.success = false
    ∧ (finalizeCurrentGameM true c em env now).2 = c := by
  obtain ⟨a, b, rest, hl⟩ : ∃ a b rest, em 1 = a :: b :: rest := by
    cases h1 : em 1 with
    | nil => rw [h1] at hlen; simp at hlen
    | cons a t =>
      cases t with
      | nil => rw [h1] at hlen; simp at hlen
      | cons b rest => exact ⟨a, b, rest, rfl⟩
  have hj : judgeArtworks env (em 1) now = .error (extErrMsg env.ext) := by
    rw [hl]
    simp only [judgeArtworks, hkey, List.map]
    cases hx : env.ext with
    | fail m => rfl
    | noText => rfl
    | badJson => rfl
    | parsed sc w =>
      rw [hx] at hext
      exact absurd hext (by simp [extUnavailable])
  have hlen0 : ¬(em 1).length = 0 := by omega
  have hwo : finalizeWithoutContractM em env now
      = .error (extErrMsg env.ext) := by
    simp [finalizeWithoutContractM, hlen0, hj]
  exact ⟨hj, by simp [finalizeCurrentGameM, hwo], rfl, rfl⟩

/-- Witness for C7 (amended): with a key configured but the capability
failing, judging errors, the demo attempt fails with the state unchanged,
and the deployed attempt fails with the state unchanged. -/
theorem claim_C7_witness :
    judgeArtworks envKeyedDown (emDemo 1) 200
      = .error (extErrMsg envKeyedDown.ext)
    ∧ finalizeCurrentGameM false (initState 7) emDemo envKeyedDown 200
        = ({ success := false, errMsg := some (extErrMsg envKeyedDown.ext)
             winnerArtist := none, winnerScore := none }, initState 7)
    ∧ (finalizeCurrentGameM true (initState 7) emDemo envKeyedDown 200).1.success
        = false
    ∧ (finalizeCurrentGameM true (initState 7) emDemo envKeyedDown 200).2
        = initState 7 := by
  exact claim_C7_amended (initState 7) emDemo envKeyedDown "sk-ant-key" 200
    rfl rfl (by decide)

/-- Counterexample for C9: game 1 of `cexC9` reached its deadline (100)
with zero entries; the deployed finalize attempt at time 200 fails at the
`getGameInfo` read and leaves the state completely unchanged — game 1
stays unfinalized AND `currentGameId` stays 1, so no next game is opened,
refuting both the "yields a finalized game" and the "next game is
opened" parts of the claim at this input.  The contract itself would
revert with `NoEntries`, and the demo path reports a No-entries failure
without opening anything either. -/
theorem claim_C9_counterexample :
    cexC9.currentGameId = 1
    ∧ (cexC9.games 1).entryCount = 0
    ∧ (cexC9.games 1).endTime = 100
    ∧ (finalizeCurrentGameM true cexC9 emEmpty envDemo 200).1.success = false
    ∧ (finalizeCurrentGameM true cexC9 emEmpty envDemo 200).2 = cexC9
    ∧ ((finalizeCurrentGameM true cexC9 emEmpty envDemo 200).2.games 1).finalized
        = false
    ∧ ((finalizeCurrentGameM true cexC9 emEmpty envDemo 200).2).currentGameId = 1
    ∧ finalizeGame cexC9 200 1 0 = Except.error PrizeErr.NoEntries
    ∧ finalizeWithoutContractM emEmpty envDemo 200
        = .ok { success := false, errMsg := some "No entries"
                winnerArtist := none, winnerScore := none } := by
  refine ⟨rfl, rfl, rfl, rfl, rfl, rfl, rfl, rfl, rfl⟩

/-- Amended C9: a game that reaches its deadline with zero entries sees
no payout, keeps pool 0 and stays unfinalized — and, contrary to the
claim, the next game is never opened by the automatic path: the contract
`finalizeGame` reverts with `NoEntries`; the deployed scheduler attempt
always fails before its zero-entry branch (the `getGameInfo` read
throws, the function being absent from PrizePool.sol), leaving the state
unchanged — and even that branch would only call `startNewGame`, whose
wrong-selector `startGame()` transaction reverts on-chain; the demo path
reports a No-entries failure without opening anything. -/
theorem claim_C9_amended (c : ContractState)
    (em : Nat → List SimpleArtSubmission) (env : JudgeEnv) (now wi : Nat)
    (hfin : (c.games c.currentGameId).finalized = false)
    (hcnt : (c.games c.currentGameId).entryCount = 0)
    (hpool : (c.games c.currentGameId).prizePool = 0)
    (hend : (c.games c.currentGameId).endTime ≤ now)
    (hem : em 1 = []) :
    finalizeGame c now c.currentGameId wi = .error .NoEntries
    ∧ (finalizeCurrentGameM true c em env now).1.success = false
    ∧ (finalizeCurrentGameM true c em env now).2 = c
    ∧ ((finalizeCurrentGameM true c em env now).2.games c.currentGameId).finalized
        = false
    ∧ ((finalizeCurrentGameM true c em env now).2.games c.currentGameId).prizePool
        = 0
    ∧ ((finalizeCurrentGameM true c em env now).2).currentGameId = c.currentGameId
    ∧ payoutsFor c.currentGameId (finalizeCurrentGameM true c em env now).2
        = payoutsFor c.currentGameId c
    ∧ startNewGameM c = c
    ∧ finalizeWithoutContractM em env now
        = .ok { success := false, errMsg := some "No entries"
                winnerArtist := none, winnerScore := none } := by
  refine ⟨finalizeGame_noEntries hfin hcnt hend, rfl, rfl, hfin, hpool, rfl,
          rfl, rfl, ?_⟩
  simp [finalizeWithoutContractM, hem]

/-- Witness for C9 (amended): the concrete zero-entry ended game `cexC9`:
the contract call reverts `NoEntries` and the deployed attempt leaves the
payouts of the game unchanged. -/
theorem claim_C9_witness :
    finalizeGame cexC9 200 cexC9.currentGameId 0
      = Except.error PrizeErr.NoEntries
    ∧ payoutsFor cexC9.currentGameId
        (finalizeCurrentGameM true cexC9 emEmpty envDemo 200).2
        = payoutsFor cexC9.currentGameId cexC9 := by
  have main := claim_C9_amended cexC9 emEmpty envDemo 200 0
    (by decide) (by decide) (by decide) (by decide) rfl
  exact ⟨main.1, main.2.2.2.2.2.2.1⟩

/-- Claim C3 exhibit (the code lacks the claimed behaviour): the same
payment proof reference `txW` is consumed by two successful admissions —
first by player `pA`, then, from the resulting state, by the distinct
player `pB`.  Nothing marks a proof as consumed: `verifyPayment` is a
pure function of the receipt, the submit route checks only the player
address, and the second call does not fail with any
`ProofAlreadyConsumed` error. -/
theorem claim_C3_proof_replay :
    entriesOf stApi1 = [(pA, txW)]
    ∧ isOkE (apiSubmit svcW chainW stApi1 20 "u2" "t2" pB txW "r2") = true
    ∧ entriesOf stApi2 = [(pA, txW), (pB, txW)]
    ∧ pA ≠ pB := by
  refine ⟨rfl, rfl, rfl, by decide⟩

/-- Claim C10: the verification step of the submit route depends only on
the transaction receipt — never on the submitting player.  For any
receipt whose (first matching) confirmed USDC `Transfer` log pays at
least the entry fee to the prize-pool address, `verifyPayment` returns
valid, and the submit route admits either of two distinct claimed
players alike; the transfer sender (`topics[1]`) is never inspected. -/
theorem claim_C10_payment_player_independent
    (svc : X402.PayService) (chain : String → Option X402.Receipt)
    (st : ServerState) (now : Nat) (u t p1 p2 tx r1 r2 : String)
    (g : BGame) (receipt : X402.Receipt) (lg : X402.TxLog)
    (hg : st.games st.currentGameId = some g)
    (ht : now ≤ g.endTime)
    (h1 : g.submissions.any
        (fun s => strLower s.playerAddress == strLower p1) = false)
    (h2 : g.submissions.any
        (fun s => strLower s.playerAddress == strLower p2) = false)
    (hc : chain tx = some receipt)
    (hst : receipt.statusSuccess = true)
    (hlog : receipt.logs.find? (X402.logMatches svc) = some lg)
    (hamt : X402.ENTRY_FEE ≤ lg.data) :
    X402.verifyPayment svc chain tx X402.ENTRY_FEE
      = { valid := true, amount := some lg.data, errMsg := none }
    ∧ isOkE (apiSubmit svc chain st now u t p1 tx r1) = true
    ∧ isOkE (apiSubmit svc chain st now u t p2 tx r2) = true := by
  have hv : X402.verifyPayment svc chain tx X402.ENTRY_FEE
      = { valid := true, amount := some lg.data, errMsg := none } := by
    simp [X402.verifyPayment, hc, hst, hlog, Nat.not_lt.mpr hamt]
  refine ⟨hv, ?_, ?_⟩
  · simp [apiSubmit, hg, Nat.not_lt.mpr ht, h1, hv, isOkE]
  · simp [apiSubmit, hg, Nat.not_lt.mpr ht, h2, hv, isOkE]

/-- Witness for C10: the concrete receipt `receiptW` (whose sender topic
names a third address, equal to neither player) verifies as valid, and
both `pA` and `pB` are admitted from the same state with the same
transaction hash. -/
theorem claim_C10_witness :
    X402.verifyPayment svcW chainW txW X402.ENTRY_FEE
      = { valid := true, amount := some 50000, errMsg := none }
    ∧ isOkE (apiSubmit svcW chainW stApi0 10 "u" "t" pA txW "r1") = true
    ∧ isOkE (apiSubmit svcW chainW stApi0 10 "u" "t" pB txW "r2") = true := by
  have main := claim_C10_payment_player_independent svcW chainW stApi0 10
    "u" "t" pA pB txW "r1" "r2" gApi0 receiptW logW
    rfl (by decide) rfl rfl rfl rfl rfl (by decide)
  exact main

end ArtArena
